import Mathlib

/-!
Shallow embedding of the change-aggregation / debounce engine of
`autotest` (src/autotest.go).

The program watches directories with fsnotify, classifies raw events
(`handleEvent`), maintains a list of watched paths (`Add` / `Remove`),
debounces modifications in a `select` loop (`monitorChanges`), and tracks
run outcomes with human-readable transition messages (`RunTests`, `round`).

Interactions with the operating system (inotify registration, `os.Stat`,
regexp matching on basenames) are modelled as oracle functions collected in
`Env`; the state the Go code mutates (the `paths` slice, the `modified`
flag, the run tracker fields) is passed explicitly.  `log.Fatal` — which
terminates the process — is modelled as a distinguished `fatal` outcome.
Durations and timestamps are integer nanosecond counts, as in Go's
`time.Duration` / `time.Time` arithmetic.
-/

namespace Autotest

/-- Outcome of `os.Stat(path)` as discriminated by the Go code:
a directory, a plain file, an error whose text ends in
"no such file or directory" (`enoent`), or any other error. -/
inductive StatResult
  | dir
  | file
  | enoent
  | otherErr
deriving DecidableEq

/-- Outcome of `fsnotify.Watcher.Add(path)`: nil error or some error. -/
inductive AddResult
  | ok
  | err
deriving DecidableEq

/-- Outcome of `fsnotify.Watcher.Remove(path)`: nil error, an error whose
text starts with "can't remove non-existent inotify watch", or any other
error. -/
inductive RmResult
  | ok
  | notWatched
  | otherErr
deriving DecidableEq

/-- OS-facing collaborators of the session, plus the immutable ignore
configuration.  `ignoreFiles` models the compiled regexps of
`autotest.IgnoreFiles` as basename predicates (`re.MatchString`). -/
structure Env where
  stat : String → StatResult
  watchAdd : String → AddResult
  watchRemove : String → RmResult
  ignoreFiles : List (String → Bool)

/-- One fsnotify event: a path plus the three op bits the Go code tests
(`fsnotify.Create`, `fsnotify.Remove`, `fsnotify.Write`; the `Rename` and
`Chmod` bits are never inspected). -/
structure Event where
  name : String
  opCreate : Bool
  opRemove : Bool
  opWrite : Bool
deriving DecidableEq

/-- Go's `path/filepath.Base` on a Unix path: "." for the empty string,
strip trailing slashes, keep everything after the last slash, "/" when
only slashes remain. -/
def filepathBase (path : String) : String :=
  if path = "" then "."
  else
    let cs := (path.toList.reverse.dropWhile (· = '/')).reverse
    let last := (cs.reverse.takeWhile (· ≠ '/')).reverse
    if last = [] then "/" else String.mk last

/-- Returns `true` iff some pattern of `IgnoreFiles` matches the basename —
the `skip` computation in the `Write` branch of `handleEvent`. -/
def isIgnoredFile (env : Env) (base : String) : Bool :=
  env.ignoreFiles.any fun re => re base

/-- Result of `autotest.Add`: either the process died in `log.Fatal`, or
the path list after the append (in which case the returned Go error is
always nil). -/
inductive AddOut
  | fatal
  | ok (paths : List String)
deriving DecidableEq

/-- Embeds `autotest.Add` (src/autotest.go:102-117): register the path with the
OS watcher — any registration error hits `log.Fatal(err)`, ending the
process — then append the path to `a.paths` unconditionally.  The
remaining statements only log; the function returns the (nil) `err`. -/
def add (env : Env) (paths : List String) (path : String) : AddOut :=
  match env.watchAdd path with
  | .err => .fatal
  | .ok => .ok (paths ++ [path])

/-- The in-place deletion loop of `autotest.Remove`: scan `a.paths` for
the first entry equal to `path`, shift the tail left over it and shrink
the slice by one, then `break`.  Later occurrences are untouched. -/
def removeFirst : List String → String → List String
  | [], _ => []
  | v :: rest, path => if v = path then rest else v :: removeFirst rest path

/-- Embeds `autotest.Remove` (src/autotest.go:119-130): drop the first occurrence
of `path` from the tracked list, then return the result of the OS-level
`fs.Remove(path)`. -/
def remove (env : Env) (paths : List String) (path : String) :
    List String × RmResult :=
  (removeFirst paths path, env.watchRemove path)

/-- Result of `handleEvent`: either the process died in `log.Fatal`
(inside `Add`), or the final `a.paths`, the returned `modified` flag and
whether a non-nil error was returned. -/
inductive HEOut
  | fatal
  | ret (paths : List String) (modified : Bool) (errReturned : Bool)
deriving DecidableEq

/-- The `fsnotify.Write` branch of `handleEvent` (src/autotest.go:241-261)
followed by the final `return modified, nil`: an ignored basename leaves
`modified` unchanged, any other write sets it. -/
def writeStep (env : Env) (paths : List String) (e : Event)
    (modified : Bool) : HEOut :=
  if e.opWrite then
    if isIgnoredFile env (filepathBase e.name) then .ret paths modified false
    else .ret paths true false
  else .ret paths modified false

/-- The `fsnotify.Remove` branch of `handleEvent` (src/autotest.go:229-240):
`a.Remove` first deletes the list entry, then its OS error is checked —
a "can't remove non-existent inotify watch" error is tolerated, any other
error is returned (`return false, err`) with the list already mutated;
otherwise `modified` is set and control falls through to the write
branch. -/
def removeStep (env : Env) (paths : List String) (e : Event)
    (modified : Bool) : HEOut :=
  if e.opRemove then
    match remove env paths e.name with
    | (paths1, .otherErr) => .ret paths1 false true
    | (paths1, _) => writeStep env paths1 e true
  else writeStep env paths e modified

/-- Embeds `autotest.handleEvent` (src/autotest.go:205-263).  The `Create` bit is
handled first: a stat error ending in "no such file or directory" makes
the whole function return `(false, nil)` at once — the remaining op bits
of the same event are never examined; any other stat error is returned as
`(false, err)`.  A directory is `Add`ed (which can `log.Fatal`), a file
sets `modified`.  Control then falls through to the `Remove` and `Write`
branches. -/
def handleEvent (env : Env) (paths : List String) (e : Event) : HEOut :=
  if e.opCreate then
    match env.stat e.name with
    | .enoent => .ret paths false false
    | .otherErr => .ret paths false true
    | .dir =>
      match add env paths e.name with
      | .fatal => .fatal
      | .ok paths1 => removeStep env paths1 e false
    | .file => removeStep env paths e true
  else removeStep env paths e false

/-- One nanosecond-count second, `int64(time.Second)`. -/
def second : Int := 1000000000

/-- Embeds `round` (src/autotest.go:62-65): `t := int64(duration) +
int64(interval)/2; return Duration(t - t%int64(interval))`.  Go's `/` and
`%` on `int64` truncate toward zero, hence `Int.tdiv` / `Int.tmod`. -/
def round (duration interval : Int) : Int :=
  let t := duration + interval.tdiv 2
  t - t.tmod interval

/-- The digit loop of Go `time.fmtFrac`: emit `prec` fractional digits of
`v` right to left, skipping trailing zeros, prefix a "." when any digit
was printed, and return the remaining value `v / 10^prec`. -/
def fmtFrac : Nat → Nat → Bool → String → String × Nat
  | v, 0, pr, acc => ((if pr then "." ++ acc else ""), v)
  | v, prec + 1, pr, acc =>
    let digit := v % 10
    let pr := pr || digit ≠ 0
    let acc := if pr then Nat.repr digit ++ acc else acc
    fmtFrac (v / 10) prec pr acc

/-- Go `time.Duration.String()` on a nanosecond count, as invoked by the
`%s` verbs of `RunTests`: sub-second values print with "ns"/"µs"/"ms"
units, zero prints "0s", larger values print seconds, then minutes and
hours when nonzero, e.g. 125 s prints as "2m5s". -/
def durationString (d : Int) : String :=
  let u := d.natAbs
  let core :=
    if u < 1000000000 then
      if u = 0 then "0s"
      else
        let pu :=
          if u < 1000 then (0, "ns")
          else if u < 1000000 then (3, "µs")
          else (6, "ms")
        let fr := fmtFrac u pu.1 false ""
        Nat.repr fr.2 ++ fr.1 ++ pu.2
    else
      let fr := fmtFrac u 9 false ""
      let u2 := fr.2
      let s := Nat.repr (u2 % 60) ++ fr.1 ++ "s"
      let u3 := u2 / 60
      let s := if u3 > 0 then Nat.repr (u3 % 60) ++ "m" ++ s else s
      let u4 := u3 / 60
      let s := if u4 > 0 then Nat.repr u4 ++ "h" ++ s else s
      s
  if d < 0 then "-" ++ core else core

/-- Values of `autotest.lastState` (src/autotest.go:53-57). -/
inductive RunState
  | starting
  | working
  | failing
deriving DecidableEq

/-- The run-result fields of the `autotest` struct: `lastState`,
`timeSuccess` and `timeFailure` (nanosecond timestamps). -/
structure Tracker where
  lastState : RunState
  timeSuccess : Int
  timeFailure : Int
deriving DecidableEq

/-- The state-transition and message logic of `RunTests`
(src/autotest.go:149-173), with the test-command outcome, its error text
and the current time passed in.  On failure: stamp `timeFailure` unless
already failing, append " (Ns success)" when leaving `working`, become
`failing`; the message is always logged.  On success: stamp `timeSuccess`
unless already working, message "success after Ns failures" when leaving
`failing`, become `working`; the message is logged only when nonempty.
Durations print via `round(time.Since(·), time.Second)` formatted with
`%s`, i.e. `durationString`. -/
def recordOutcome (errText : String) (success : Bool) (now : Int)
    (tr : Tracker) : Tracker × Option String :=
  if success then
    let timeSuccess := if tr.lastState ≠ .working then now else tr.timeSuccess
    let msg :=
      if tr.lastState = .failing then
        some ("success after " ++
          durationString (round (now - tr.timeFailure) second) ++ " failures")
      else none
    (⟨.working, timeSuccess, tr.timeFailure⟩, msg)
  else
    let timeFailure := if tr.lastState ≠ .failing then now else tr.timeFailure
    let msg0 := "error: " ++ errText
    let msg :=
      if tr.lastState = .working then
        msg0 ++ " (" ++
          durationString (round (now - tr.timeSuccess) second) ++ " success)"
      else msg0
    (⟨.failing, tr.timeSuccess, timeFailure⟩, some msg)

/-- One item the `select` of `monitorChanges` can receive: a value from
`a.fs.Events`, one from `a.fs.Errors`, or the `a.done` stop signal. -/
inductive Item
  | evt (e : Event)
  | srcErr
  | stop
deriving DecidableEq

/-- The loop-local state of `monitorChanges`: the watched-path list the
event branches mutate, and the `modified` flag. -/
structure LoopState where
  paths : List String
  modified : Bool
deriving DecidableEq

/-- Embeds `autotest.monitorChanges` (src/autotest.go:176-202) run on a timed
input trace: `(t, item)` pairs in arrival order, timestamps in
nanoseconds.  Each iteration of the Go loop evaluates `select` afresh, so
`time.After(a.SettleTime)` restarts from the moment the previous case
finished — here `t0`, the consumption time of the previous item (event
handling and `RunTests` are modelled as instantaneous).

When the next item arrives at `t1 < t0 + settle` it wins the select and
is handled; otherwise the timeout case fires first, at `t0 + settle`,
running the tests iff `modified` and clearing the flag.  Any further
timeouts before `t1` find `modified = false` and do nothing, so the
window start for `t1`'s successor is simply `t1` again; the recursion
below collapses those empty timeouts away.  (At an exact tie
`t1 = t0 + settle` Go's select chooses randomly; the model lets the timer
win — the theorems below only use strict inequalities.)

Returns the list of times at which a trigger (a `RunTests` invocation)
fired, or `none` when `handleEvent` hit `log.Fatal`.  On `stop` the loop
signals `Finished` and returns; an exhausted trace stands for input
silence, after which at most one further timeout can still fire. -/
def monitorChanges (env : Env) (settle : Nat) :
    Nat → LoopState → List (Nat × Item) → Option (List Nat)
  | t0, st, [] => some (if st.modified then [t0 + settle] else [])
  | t0, st, (t1, it) :: rest =>
    let expired := decide (t0 + settle ≤ t1)
    let trig := if st.modified && expired then [t0 + settle] else []
    let st1 : LoopState := ⟨st.paths, st.modified && !expired⟩
    match it with
    | .stop => some trig
    | .srcErr =>
      Option.map (fun l => trig ++ l) (monitorChanges env settle t1 st1 rest)
    | .evt e =>
      match handleEvent env st1.paths e with
      | .fatal => none
      | .ret paths1 mod err =>
        Option.map (fun l => trig ++ l)
          (monitorChanges env settle t1
            ⟨paths1, st1.modified || (!err && mod)⟩ rest)

/-- A `written`-only event whose basename no ignore pattern matches: the
events quantified over in the burst property. -/
def qualifyingWrite (env : Env) (e : Event) : Bool :=
  !e.opCreate && !e.opRemove && e.opWrite &&
    !isIgnoredFile env (filepathBase e.name)

/-- Consecutive-arrival condition of a burst: each timestamp lies strictly
within `settle` of the previous one, starting from `t0`. -/
def withinGaps {α : Type} (settle : Nat) : Nat → List (Nat × α) → Bool
  | _, [] => true
  | t0, (t1, _) :: rest => decide (t1 < t0 + settle) && withinGaps settle t1 rest

/-- The timestamp of the last trace entry, `t0` for an empty trace. -/
def lastTime {α : Type} (t0 : Nat) (trace : List (Nat × α)) : Nat :=
  (trace.map Prod.fst).getLastD t0

/-- Wraps raw fsnotify events as `a.fs.Events` channel items. -/
def eventTrace (trace : List (Nat × Event)) : List (Nat × Item) :=
  trace.map fun p => (p.1, Item.evt p.2)

/-- An item that the spec classifies as a non-modification: a source
error, a `written` event whose basename is ignored, or a `created` event
that stats as a directory (a watch-set mutation; its registration
succeeding) or that already vanished again (the tolerated stat race). -/
def nonModItem (env : Env) : Item → Bool
  | .srcErr => true
  | .stop => false
  | .evt e =>
    (!e.opCreate && !e.opRemove && e.opWrite &&
      isIgnoredFile env (filepathBase e.name)) ||
    (e.opCreate && !e.opRemove && !e.opWrite &&
      (match env.stat e.name, env.watchAdd e.name with
       | .dir, .ok => true
       | .enoent, _ => true
       | _, _ => false))

/-- Oracle sample: every path stats as a plain file, every OS watch
operation succeeds, nothing is ignored. -/
def envFileOk : Env := ⟨fun _ => .file, fun _ => .ok, fun _ => .ok, []⟩

/-- Oracle sample: every path stats as a directory, every OS watch
operation succeeds, nothing is ignored. -/
def envDirOk : Env := ⟨fun _ => .dir, fun _ => .ok, fun _ => .ok, []⟩

/-- Oracle sample: every stat fails with "no such file or directory". -/
def envEnoent : Env := ⟨fun _ => .enoent, fun _ => .ok, fun _ => .ok, []⟩

/-- Oracle sample: OS watch registration always fails. -/
def envAddErr : Env := ⟨fun _ => .file, fun _ => .err, fun _ => .ok, []⟩

/-- Oracle sample: one ignore pattern, matching exactly the basename
"ign" (standing for a configured `IgnoreFiles` regexp). -/
def envIgn : Env := ⟨fun _ => .file, fun _ => .ok, fun _ => .ok, [fun b => b == "ign"]⟩

/-! ### Helper lemmas -/

theorem removeFirst_append_of_not_mem (l1 l2 : List String) (p : String)
    (h : p ∉ l1) : removeFirst (l1 ++ p :: l2) p = l1 ++ l2 := by
  induction l1 with
  | nil => simp [removeFirst]
  | cons a t ih =>
    simp only [List.mem_cons, not_or] at h
    simp only [List.cons_append, removeFirst, if_neg (Ne.symm h.1),
      List.append_eq]
    rw [ih h.2]

theorem removeFirst_of_not_mem (l : List String) (p : String)
    (h : p ∉ l) : removeFirst l p = l := by
  induction l with
  | nil => rfl
  | cons a t ih =>
    simp only [List.mem_cons, not_or] at h
    simp only [removeFirst, if_neg (Ne.symm h.1)]
    rw [ih h.2]

theorem removeStep_tolerated (env : Env) (paths : List String) (e : Event)
    (m : Bool) (hr : e.opRemove = true) (hw : e.opWrite = false)
    (hok : env.watchRemove e.name ≠ .otherErr) :
    removeStep env paths e m = .ret (removeFirst paths e.name) true false := by
  simp only [removeStep, hr, if_pos, remove]
  cases h : env.watchRemove e.name with
  | otherErr => exact absurd h hok
  | ok => simp [writeStep, hw]
  | notWatched => simp [writeStep, hw]

theorem handleEvent_qualifying (env : Env) (paths : List String) (e : Event)
    (h : qualifyingWrite env e = true) :
    handleEvent env paths e = .ret paths true false := by
  simp only [qualifyingWrite, Bool.and_eq_true, Bool.not_eq_true'] at h
  obtain ⟨⟨⟨hc, hr⟩, hw⟩, hig⟩ := h
  simp [handleEvent, removeStep, writeStep, hc, hr, hw, hig]

/-! ### C3 — Watch Set duplicate-freedom -/

/-- C3, counterexample.  The claim says `Add(p)` twice leaves the tracked
list equal to the list after one `Add(p)`.  In the code `Add` appends
unconditionally — there is no membership check — so a second `Add "p"`
after a first one yields `["p", "p"]`, not `["p"]`. -/
theorem c3_add_twice_duplicates :
    add envFileOk [] "p" = .ok ["p"] ∧
    add envFileOk ["p"] "p" = .ok ["p", "p"] ∧
    AddOut.ok ["p", "p"] ≠ AddOut.ok ["p"] := by
  refine ⟨rfl, rfl, by decide⟩

/-- C3, amended: `Add(path)` appends `path` to the tracked list
unconditionally whenever the OS registration succeeds — there is no
duplicate check, so the tracked list can contain the same path twice. -/
theorem c3_add_appends_unconditionally (env : Env) (paths : List String)
    (p : String) (h : env.watchAdd p = .ok) :
    add env paths p = .ok (paths ++ [p]) := by
  simp [add, h]

/-- C3, witness for the amended theorem at a concrete input. -/
theorem c3_add_appends_unconditionally_witness :
    add envFileOk ["p"] "p" = AddOut.ok ["p", "p"] :=
  c3_add_appends_unconditionally envFileOk ["p"] "p" rfl

/-! ### C4 — Add on registration failure -/

/-- C4, counterexample.  The claim says a failing OS watch registration
makes `Add` return a `WatchError` to its caller, fatal only to that
operation and not to the process.  In the code `Add` runs
`log.Fatal(err)` on any registration error, which terminates the whole
process: the model result is `fatal`, and no error-return outcome exists
in `Add` at all (`return err` is reached only with a nil error). -/
theorem c4_add_registration_failure_is_fatal :
    add envAddErr [] "p" = .fatal ∧ AddOut.fatal ≠ AddOut.ok [] := by
  refine ⟨rfl, by decide⟩

/-- C4, amended: when the underlying OS watch registration fails — for
any reason, with no tolerated-race distinction — `Add` logs the error
fatally and the process terminates; no error is ever returned to the
caller and the monitoring loop does not survive. -/
theorem c4_add_fatal_on_any_error (env : Env) (paths : List String)
    (p : String) (h : env.watchAdd p = .err) :
    add env paths p = .fatal := by
  simp [add, h]

/-- C4, witness for the amended theorem at a concrete input. -/
theorem c4_add_fatal_on_any_error_witness :
    add envAddErr [] "p" = AddOut.fatal :=
  c4_add_fatal_on_any_error envAddErr [] "p" rfl

/-! ### C5 — per-bit processing after a tolerated condition -/

/-- C5, counterexample.  The claim says an event carrying both `created`
and `removed` bits whose stat fails with "no such file or directory"
still processes the `removed` bit and reports a modification.  In the
code the tolerated stat race executes `return false, nil`, so the
`removed` bit is never examined: the path stays in the tracked list and
no modification is reported (`false`, where the claim requires `true`). -/
theorem c5_enoent_skips_remaining_bits :
    handleEvent envEnoent ["p"] ⟨"p", true, true, false⟩ =
      .ret ["p"] false false ∧
    HEOut.ret ["p"] false false ≠ HEOut.ret [] true false := by
  refine ⟨rfl, by decide⟩

/-- C5, amended: when the `created` bit is set and the stat fails with
the tolerated "no such file or directory" condition, `handleEvent`
returns immediately with no modification and no error, leaving the
tracked list untouched; the remaining kind bits of the same event are
not processed. -/
theorem c5_enoent_early_return (env : Env) (paths : List String) (e : Event)
    (hc : e.opCreate = true) (hs : env.stat e.name = .enoent) :
    handleEvent env paths e = .ret paths false false := by
  simp [handleEvent, hc, hs]

/-- C5, witness for the amended theorem at a concrete input (an event
with the `created` and `written` bits both set). -/
theorem c5_enoent_early_return_witness :
    handleEvent envEnoent [] ⟨"q", true, false, true⟩ =
      HEOut.ret [] false false :=
  c5_enoent_early_return envEnoent [] ⟨"q", true, false, true⟩ rfl rfl

/-! ### C6 — removed events -/

/-- C6, counterexample.  The claim says a `removed` event always leaves
the path absent from the tracked list.  `Remove` deletes only the first
occurrence, and `Add` can create duplicates, so after a `removed` event
on `"p"` with tracked list `["p", "p"]` the list is `["p"]` — the path is
still present. -/
theorem c6_removed_duplicate_survives :
    handleEvent envFileOk ["p", "p"] ⟨"p", false, true, false⟩ =
      .ret ["p"] true false ∧
    ("p" : String) ∈ (["p"] : List String) := by
  refine ⟨rfl, by decide⟩

/-- C6, amended: a `removed` event whose OS-level unwatch succeeds or
fails with the tolerated "non-existent watch" condition reports a
modification and deletes the first occurrence of the path from the
tracked list, preserving the order of the remaining entries; the path is
absent afterward provided it occurred at most once, and a path not in the
list at all is a tolerated no-op on the list (idempotent in the
duplicate-free case). -/
theorem c6_removed_first_occurrence (env : Env) (e : Event)
    (l1 l2 : List String) (hr : e.opRemove = true) (hc : e.opCreate = false)
    (hw : e.opWrite = false) (hok : env.watchRemove e.name ≠ .otherErr)
    (h1 : e.name ∉ l1) :
    handleEvent env (l1 ++ e.name :: l2) e = .ret (l1 ++ l2) true false ∧
    (e.name ∉ l2 → e.name ∉ l1 ++ l2) ∧
    (e.name ∉ l1 ++ l2 →
      handleEvent env (l1 ++ l2) e = .ret (l1 ++ l2) true false) := by
  refine ⟨?_, ?_, ?_⟩
  · simp only [handleEvent, hc, Bool.false_eq_true, if_false]
    rw [removeStep_tolerated env _ e false hr hw hok,
      removeFirst_append_of_not_mem l1 l2 e.name h1]
  · intro h2
    simp only [List.mem_append, List.append_eq, not_or]
    exact ⟨h1, h2⟩
  · intro h12
    simp only [handleEvent, hc, Bool.false_eq_true, if_false]
    rw [removeStep_tolerated env _ e false hr hw hok,
      removeFirst_of_not_mem _ _ h12]

/-- C6, witness for the amended theorem at a concrete input. -/
theorem c6_removed_first_occurrence_witness :
    handleEvent envFileOk ["a", "p", "b"] ⟨"p", false, true, false⟩ =
      HEOut.ret ["a", "b"] true false :=
  (c6_removed_first_occurrence envFileOk ⟨"p", false, true, false⟩
    ["a"] ["b"] rfl rfl rfl (by decide) (by decide)).1

/-! ### C7 — created events -/

/-- C7 (confirmed): for a pure `created` event, a path that stats as a
directory (and registers successfully) ends up in the Watch Set without
counting as a modification; a path that stats as a file counts as a
modification; a stat failing with "no such file or directory" is a
transient no-op and not an error. -/
theorem c7_created_event (env : Env) (paths : List String) (e : Event)
    (hc : e.opCreate = true) (hr : e.opRemove = false)
    (hw : e.opWrite = false) :
    (env.stat e.name = .dir → env.watchAdd e.name = .ok →
      handleEvent env paths e = .ret (paths ++ [e.name]) false false ∧
        e.name ∈ paths ++ [e.name]) ∧
    (env.stat e.name = .file →
      handleEvent env paths e = .ret paths true false) ∧
    (env.stat e.name = .enoent →
      handleEvent env paths e = .ret paths false false) := by
  refine ⟨fun hs ha => ⟨?_, by simp⟩, fun hs => ?_, fun hs => ?_⟩
  · simp [handleEvent, hc, hs, add, ha, removeStep, hr, writeStep, hw]
  · simp [handleEvent, hc, hs, removeStep, hr, writeStep, hw]
  · simp [handleEvent, hc, hs]

/-- C7, witness: the three stat outcomes at concrete inputs. -/
theorem c7_created_event_witness :
    handleEvent envDirOk [] ⟨"d", true, false, false⟩ =
      HEOut.ret ["d"] false false ∧
    handleEvent envFileOk [] ⟨"f", true, false, false⟩ =
      HEOut.ret [] true false ∧
    handleEvent envEnoent [] ⟨"g", true, false, false⟩ =
      HEOut.ret [] false false :=
  ⟨((c7_created_event envDirOk [] ⟨"d", true, false, false⟩
      rfl rfl rfl).1 rfl rfl).1,
   (c7_created_event envFileOk [] ⟨"f", true, false, false⟩
      rfl rfl rfl).2.1 rfl,
   (c7_created_event envEnoent [] ⟨"g", true, false, false⟩
      rfl rfl rfl).2.2 rfl⟩

/-! ### C8 — success-after-failures message -/

/-- C8, counterexample.  The claim says the transition message for a
success at `now = 125 s` after failing since `t = 0 s` is exactly
"success after 125s failures".  The code formats the rounded duration
with the `%s` verb, i.e. with the `time.Duration` renderer, which prints
125 seconds as "2m5s", so the message is "success after 2m5s failures". -/
theorem c8_message_formats_minutes :
    recordOutcome "" true 125000000000 ⟨.failing, 0, 0⟩ =
      (⟨.working, 125000000000, 0⟩, some "success after 2m5s failures") ∧
    (some "success after 2m5s failures" : Option String) ≠
      some "success after 125s failures" := by
  refine ⟨rfl, by decide⟩

/-- C8, amended: with prior status `failing` and `timeFailure = 0 s`, a
successful outcome recorded at `now = 125 s` transitions to `working`,
stamps `timeSuccess`, and produces exactly the message
"success after 2m5s failures" — the elapsed 125 s rounds to 125 s and is
rendered in Go duration notation as "2m5s". -/
theorem c8_transition_message (ts : Int) :
    recordOutcome "" true 125000000000 ⟨.failing, ts, 0⟩ =
      (⟨.working, 125000000000, 0⟩, some "success after 2m5s failures") := by
  simp only [recordOutcome]
  norm_num
  exact ⟨fun hsw => absurd hsw (by decide), by rfl⟩

/-! ### C9 — duration rounding -/

/-- C9 (confirmed): on the nonnegative durations it is applied to
(results of `time.Since`), `round · time.Second` yields a whole number of
seconds whose distance from the input lies in `(-second/2, second/2]` —
the nearest whole second, halves rounded up — and on the three quoted
inputs: 4.6 s rounds to 5 s, 4.4 s to 4 s, and 4.5 s to 5 s. -/
theorem c9_round_half_up (d : Int) (h : 0 ≤ d) :
    (second ∣ round d second ∧
      round d second - d ≤ 500000000 ∧
      -500000000 < round d second - d) ∧
    round 4600000000 second = 5000000000 ∧
    round 4400000000 second = 4000000000 ∧
    round 4500000000 second = 5000000000 := by
  have h2 : (1000000000 : Int).tdiv 2 = 500000000 := by decide
  have hm : (d + 500000000).tmod 1000000000 = (d + 500000000) % 1000000000 :=
    Int.tmod_eq_emod (by omega) (by norm_num)
  refine ⟨?_, by decide, by decide, by decide⟩
  simp only [round, second, h2, hm]
  refine ⟨⟨(d + 500000000) / 1000000000, by omega⟩, by omega, by omega⟩

/-- C9, witness at a concrete input. -/
theorem c9_round_half_up_witness :
    second ∣ round 4600000000 second ∧
    round 4600000000 second - 4600000000 ≤ 500000000 ∧
    -500000000 < round 4600000000 second - 4600000000 :=
  (c9_round_half_up 4600000000 (by decide)).1

/-! ### C10 — Remove deletes only the first occurrence -/

/-- C10 (confirmed): `Remove(path)` deletes exactly the first occurrence
of `path` from the tracked list, preserving the order of the remaining
entries; if the path occurs again later in the list, that later
occurrence is still present afterward. -/
theorem c10_remove_first_occurrence_only (env : Env) (l1 l2 : List String)
    (p : String) (h : p ∉ l1) :
    (remove env (l1 ++ p :: l2) p).1 = l1 ++ l2 ∧
    (p ∈ l2 → p ∈ (remove env (l1 ++ p :: l2) p).1) := by
  have key : (remove env (l1 ++ p :: l2) p).1 = l1 ++ l2 :=
    removeFirst_append_of_not_mem l1 l2 p h
  exact ⟨key, fun hp => key ▸ List.mem_append_right l1 hp⟩

/-- C10, witness: the tracked list `["p", "p"]` (two `Add "p"` calls)
still contains `"p"` after one `Remove "p"`. -/
theorem c10_remove_first_occurrence_only_witness :
    (remove envFileOk ["p", "p"] "p").1 = ["p"] ∧
    ("p" ∈ (remove envFileOk ["p", "p"] "p").1) :=
  ⟨(c10_remove_first_occurrence_only envFileOk [] ["p"] "p" (by decide)).1,
   (c10_remove_first_occurrence_only envFileOk [] ["p"] "p" (by decide)).2
     (by decide)⟩

/-! ### C1 — a burst of qualifying writes fires one trigger -/

theorem lastTime_cons {α : Type} (t0 t1 : Nat) (x : α)
    (tl : List (Nat × α)) : lastTime t0 ((t1, x) :: tl) = lastTime t1 tl := by
  simp only [lastTime, List.map_cons, List.getLastD_cons]

theorem monitor_armed (env : Env) (settle : Nat) :
    ∀ (rest : List (Nat × Event)) (t0 : Nat) (paths : List String),
    (∀ p ∈ rest, qualifyingWrite env p.2 = true) →
    withinGaps settle t0 rest = true →
    monitorChanges env settle t0 ⟨paths, true⟩ (eventTrace rest) =
      some [lastTime t0 rest + settle] := by
  intro rest
  induction rest with
  | nil => intro t0 paths _ _; simp [monitorChanges, eventTrace, lastTime]
  | cons hd tl ih =>
    intro t0 paths hq hg
    obtain ⟨t1, e⟩ := hd
    simp only [withinGaps, Bool.and_eq_true, decide_eq_true_eq] at hg
    have hnotexp : ¬ (t0 + settle ≤ t1) := by omega
    have hqe : qualifyingWrite env e = true := hq (t1, e) (by simp)
    have hrest : ∀ p ∈ tl, qualifyingWrite env p.2 = true :=
      fun p hp => hq p (List.mem_cons_of_mem _ hp)
    simp only [eventTrace, List.map_cons, monitorChanges,
      handleEvent_qualifying env paths e hqe, decide_eq_true_eq,
      hnotexp, decide_eq_false hnotexp, Bool.and_false, Bool.and_true,
      Bool.not_false, Bool.true_and, Bool.false_and, if_neg hnotexp]
    have := ih t1 paths hrest hg.2
    simp only [eventTrace] at this
    rw [lastTime_cons]
    simp [this]

/-- C1 (confirmed): starting with no pending modification, a nonempty
burst of `written` events on non-ignored basenames in which each event
arrives strictly within `settleTimeout` of the previous one makes the
monitoring loop fire exactly one trigger — one `RunTests` invocation —
timed `settleTimeout` after the last event of the burst. -/
theorem c1_burst_single_trigger (env : Env) (settle t0 : Nat)
    (paths : List String) (t1 : Nat) (e : Event)
    (rest : List (Nat × Event))
    (hq : qualifyingWrite env e = true)
    (hqr : ∀ p ∈ rest, qualifyingWrite env p.2 = true)
    (hg : withinGaps settle t1 rest = true) :
    monitorChanges env settle t0 ⟨paths, false⟩
        (eventTrace ((t1, e) :: rest)) =
      some [lastTime t1 rest + settle] := by
  have harm := monitor_armed env settle rest t1 paths hqr hg
  simp only [eventTrace, List.map_cons, monitorChanges,
    handleEvent_qualifying env paths e hq, Bool.false_and, Bool.false_or,
    Bool.and_true, Bool.not_true, if_neg (by simp : ¬ (False : Prop))]
  simp only [eventTrace] at harm
  simp [harm]

/-- C1, witness: two qualifying writes at 0 ns and 1 ns with a 2 ns
settle time fire exactly one trigger, at 3 ns. -/
theorem c1_burst_single_trigger_witness :
    monitorChanges envFileOk 2 0 ⟨[], false⟩
      (eventTrace [(0, ⟨"/d/a.go", false, false, true⟩),
        (1, ⟨"/d/b.go", false, false, true⟩)]) = some [3] :=
  c1_burst_single_trigger envFileOk 2 0 [] 0 ⟨"/d/a.go", false, false, true⟩
    [(1, ⟨"/d/b.go", false, false, true⟩)] (by decide) (by decide) (by decide)

/-! ### C2 — non-modification events and the settle timer -/

/-- C2, counterexample.  The claim says that with a modification pending
the trigger fires `settleTimeout` after the last qualifying modification
even when non-modification events keep arriving faster than
`settleTimeout`.  With a 2 ns settle time, a qualifying write at 1 ns, an
ignored write at 2 ns and source errors at 3 ns and 4 ns, the claim
predicts a trigger at 3 ns; but each `select` iteration re-creates
`time.After(a.SettleTime)`, so every received item restarts the settle
window and the trigger actually fires at 6 ns. -/
theorem c2_nonmod_resets_timer :
    monitorChanges envIgn 2 0 ⟨[], false⟩
      [(1, .evt ⟨"/d/a.go", false, false, true⟩),
       (2, .evt ⟨"/d/ign", false, false, true⟩),
       (3, .srcErr), (4, .srcErr)] = some [6] ∧
    (some [6] : Option (List Nat)) ≠ some [3] := by
  refine ⟨rfl, by decide⟩

theorem handleEvent_nonmod (env : Env) (paths : List String) (e : Event)
    (h : nonModItem env (.evt e) = true) :
    ∃ paths1, handleEvent env paths e = .ret paths1 false false := by
  simp only [nonModItem, Bool.or_eq_true, Bool.and_eq_true,
    Bool.not_eq_true'] at h
  rcases h with ⟨⟨⟨hc, hr⟩, hw⟩, hig⟩ | ⟨⟨⟨hc, hr⟩, hw⟩, hm⟩
  · exact ⟨paths, by simp [handleEvent, removeStep, writeStep, hc, hr, hw, hig]⟩
  · cases hs : env.stat e.name with
    | enoent => exact ⟨paths, by simp [handleEvent, hc, hs]⟩
    | dir =>
      cases ha : env.watchAdd e.name with
      | ok =>
        refine ⟨paths ++ [e.name], ?_⟩
        simp [handleEvent, hc, hs, add, ha, removeStep, hr, writeStep, hw]
      | err => rw [hs, ha] at hm; simp at hm
    | file => rw [hs] at hm; simp at hm
    | otherErr => rw [hs] at hm; simp at hm

/-- C2, amended: non-modification events (watch-set mutations such as a
watched directory creation, ignored write events, tolerated stat races,
and source errors) never arm the settle timer — the pending flag is
unchanged, so from an idle state no trigger ever fires — but, because the
`select` re-creates `time.After(a.SettleTime)` on every loop iteration,
every received item does reset the settle window: with a modification
pending, the trigger fires `settleTimeout` after the last received event
of any kind, not `settleTimeout` after the last qualifying
modification. -/
theorem c2_nonmod_no_arm_but_reset (env : Env) (settle : Nat) :
    ∀ (trace : List (Nat × Item)) (t0 : Nat) (st : LoopState),
    (∀ p ∈ trace, nonModItem env p.2 = true) →
    withinGaps settle t0 trace = true →
    monitorChanges env settle t0 st trace =
      some (if st.modified then [lastTime t0 trace + settle] else []) := by
  intro trace
  induction trace with
  | nil => intro t0 st _ _; simp [monitorChanges, lastTime]
  | cons hd tl ih =>
    intro t0 st hq hg
    obtain ⟨t1, it⟩ := hd
    simp only [withinGaps, Bool.and_eq_true, decide_eq_true_eq] at hg
    have hnotexp : ¬ (t0 + settle ≤ t1) := by omega
    have hrest : ∀ p ∈ tl, nonModItem env p.2 = true :=
      fun p hp => hq p (List.mem_cons_of_mem _ hp)
    have hit : nonModItem env it = true := hq (t1, it) (by simp)
    rw [lastTime_cons]
    cases it with
    | stop => simp [nonModItem] at hit
    | srcErr =>
      simp only [monitorChanges, decide_eq_false hnotexp, Bool.not_false,
        Bool.and_true]
      rw [ih t1 ⟨st.paths, st.modified⟩ hrest hg.2]
      simp
    | evt e =>
      obtain ⟨paths1, he⟩ := handleEvent_nonmod env st.paths e hit
      simp only [monitorChanges, decide_eq_false hnotexp, Bool.not_false,
        Bool.and_true, Bool.and_false, Bool.or_false, he]
      rw [ih t1 ⟨paths1, st.modified⟩ hrest hg.2]
      simp

/-- C2, witness for the amended theorem: with a modification pending, a
source error at 1 ns and an ignored write at 2 ns postpone the trigger to
4 ns; from an idle state the same items fire nothing. -/
theorem c2_nonmod_no_arm_but_reset_witness :
    monitorChanges envIgn 2 0 ⟨[], true⟩
      [(1, .srcErr), (2, .evt ⟨"/d/ign", false, false, true⟩)] = some [4] ∧
    monitorChanges envIgn 2 0 ⟨[], false⟩
      [(1, .srcErr), (2, .evt ⟨"/d/ign", false, false, true⟩)] = some [] :=
  ⟨c2_nonmod_no_arm_but_reset envIgn 2
      [(1, .srcErr), (2, .evt ⟨"/d/ign", false, false, true⟩)] 0 ⟨[], true⟩
      (by decide) (by decide),
   c2_nonmod_no_arm_but_reset envIgn 2
      [(1, .srcErr), (2, .evt ⟨"/d/ign", false, false, true⟩)] 0 ⟨[], false⟩
      (by decide) (by decide)⟩

end Autotest
